import Mathlib

/-!
Verification development for the Communivents/argeon instance installer.

The repository contains two near-identical installer implementations:
`src/frontend/src/windows/main/ts/instances/create.ts` (imported by the
install modal, hence the active installer) and
`src/frontend/src/windows/main/ts/instances/instance.ts` (a refactored
variant exporting utility functions).  Both are embedded below; the
unqualified names (`createMinecraftInstance`, `downloadWithRetry`,
`downloadFiles`, `updateLauncherProfiles`) follow `create.ts`, and the
`instance.ts` variants carry the resolver names it declares
(`getBasePath`, `getMinecraftPath`, `getPrismLauncherPath`) or an
`Instance` suffix.

External collaborators (the shell command runner used by curl, `getStats`,
the image/base64 helpers, clock) are modelled as oracle parameters; the
filesystem is modelled as the list of existing paths plus the parsed
content of the generic launcher's profile store, and every observable
action (directory creation, file writes, removals, event dispatches,
toasts, transfers) is recorded in an explicit trace of `Step`s.
-/

/-- `path.join` of path-browserify on two plain segments. -/
def joinPath (a b : String) : String := a ++ "/" ++ b

/-- The characters of the first list begin the second list. -/
def startsWithChars : List Char → List Char → Bool
  | [], _ => true
  | _ :: _, [] => false
  | p :: ps, c :: cs => p == c && startsWithChars ps cs

/-- `String.startsWith`, stated over the character lists. -/
def strStartsWith (s pre : String) : Bool := startsWithChars pre.data s.data

/-- Split a character list at every slash. -/
def splitOnSlash : List Char → List (List Char)
  | [] => [[]]
  | c :: rest =>
    match splitOnSlash rest with
    | [] => [[]]
    | g :: gs => if c == '/' then [] :: g :: gs else (c :: g) :: gs

/-- Rejoin path segments with slashes. -/
def joinSlash : List String → String
  | [] => ""
  | [x] => x
  | x :: xs => x ++ "/" ++ joinSlash xs

/-- `path.dirname` of path-browserify: everything before the last slash. -/
def dirname (p : String) : String :=
  let parts := (splitOnSlash p.data).map String.mk
  if parts.length ≤ 1 then "." else joinSlash parts.dropLast

/-- The fixed remote base URL (`src/.../instances/api.ts`). -/
def API_URL : String := "http://141.94.37.234:7122"

/-- Result of `os.execCommand`. -/
structure ExecResult where
  exitCode : Int
  stdErr : String
  stdOut : String
deriving Repr, DecidableEq

/-- Result of `filesystem.getStats`. -/
structure FileStats where
  isFile : Bool
  size : Nat
deriving Repr, DecidableEq

/-- What the outside world does on one download attempt: the transfer's
exec result together with the stats of the target file afterwards
(`none` models `getStats` throwing because the file is missing). -/
structure AttemptOutcome where
  exec : ExecResult
  stats : Option FileStats
deriving Repr, DecidableEq

/-- An attempt of `downloadWithRetry` succeeds iff the command exits with
status zero and the target file exists, is a regular file and is
non-empty (create.ts lines 100-110). -/
def attemptSucceeds (a : AttemptOutcome) : Bool :=
  a.exec.exitCode == 0 &&
    (match a.stats with
     | some s => s.isFile && s.size != 0
     | none => false)

/-- One entry of a manifest file category (`File` in types.ts). -/
structure FileEntryM where
  filename : String
  download_url : String
  hash : String
  size : Nat
deriving Repr, DecidableEq

/-- `loader` of `InstanceData`. -/
structure LoaderM where
  type : String
  version : String
deriving Repr, DecidableEq

/-- `java` of `InstanceData`. -/
structure JavaM where
  minimum_version : String
  recommended_memory : String
deriving Repr, DecidableEq

/-- `download_urls` of `InstanceData`. -/
structure DownloadUrlsM where
  client_jar : String
  assets : String
deriving Repr, DecidableEq

/-- `files` of `InstanceData`: the eleven fixed categories. -/
structure FilesM where
  mods : List FileEntryM
  resourcepacks : List FileEntryM
  shaderpacks : List FileEntryM
  saves : List FileEntryM
  config : List FileEntryM
  screenshots : List FileEntryM
  logs : List FileEntryM
  crash_reports : List FileEntryM
  versions : List FileEntryM
  assets : List FileEntryM
  libraries : List FileEntryM
deriving Repr, DecidableEq

/-- `InstanceData` of types.ts (manifest of one installable instance). -/
structure InstanceDataM where
  name : String
  description : String
  minecraft_version : String
  loader : LoaderM
  java : JavaM
  download_urls : DownloadUrlsM
  files : FilesM
deriving Repr, DecidableEq

/-- `Object.values(instanceData.files).flat()`. -/
def allFiles (f : FilesM) : List FileEntryM :=
  f.mods ++ f.resourcepacks ++ f.shaderpacks ++ f.saves ++ f.config ++
    f.screenshots ++ f.logs ++ f.crash_reports ++ f.versions ++ f.assets ++
    f.libraries

/-- The fixed category processing order of create.ts line 357, paired with
each category's entry list. -/
def categoryList (f : FilesM) : List (String × List FileEntryM) :=
  [("mods", f.mods), ("resourcepacks", f.resourcepacks),
   ("shaderpacks", f.shaderpacks), ("saves", f.saves),
   ("config", f.config), ("screenshots", f.screenshots),
   ("logs", f.logs), ("crash-reports", f.crash_reports),
   ("versions", f.versions), ("assets", f.assets),
   ("libraries", f.libraries)]

/-- A manifest entry is an index marker iff its filename starts with
`.index/`. -/
def isIndex (f : FileEntryM) : Bool := strStartsWith f.filename ".index/"

/-- JavaScript `Math.round (num / den)`: round half-up of the rational
`num / den`. -/
def mathRound (num den : Nat) : Nat := (2 * num + den) / (2 * den)

/-- One profile of the generic launcher's profile store. -/
structure Profile where
  created : String
  icon : String
  name : String
  lastUsed : String
  lastVersionId : String
  gameDir : String
  type : String
  javaArgs : Option String
deriving Repr, DecidableEq

/-- The generic launcher's profile store (`launcher_profiles.json`),
with `profiles` as the insertion-ordered key/value list a JS object is. -/
structure ProfileStore where
  profiles : List (String × Profile)
  settings : List (String × String)
  version : Nat
deriving Repr, DecidableEq

/-- The store created when `launcher_profiles.json` does not exist yet. -/
def defaultStore : ProfileStore := { profiles := [], settings := [], version := 3 }

/-- JS object property assignment `obj[k] = v`: replace the entry in
place when the key exists, append it otherwise. -/
def upsert (k : String) (v : Profile) : List (String × Profile) → List (String × Profile)
  | [] => [(k, v)]
  | (k', v') :: t => if k' == k then (k, v) :: t else (k', v') :: upsert k v t

/-- JS object property read `obj[k]`. -/
def findVal (k : String) : List (String × Profile) → Option Profile
  | [] => none
  | (k', v) :: t => if k' == k then some v else findVal k t

/-- Number of entries carrying the key `k`. -/
def countKey (k : String) (l : List (String × Profile)) : Nat :=
  (l.filter (fun e => e.1 == k)).length

/-- The deterministic profile slug of create.ts line 66 /
instance.ts line 246: lower-case the name, replace every character
outside `[a-z0-9]` with an underscore, prefix `communivents_`. -/
def profileId (name : String) : String :=
  "communivents_" ++ String.mk (name.data.map (fun c =>
    let lc := c.toLower
    if (97 ≤ lc.toNat && lc.toNat ≤ 122) || (48 ≤ lc.toNat && lc.toNat ≤ 57)
    then lc else '_'))

/-- Observable actions of one install run. -/
inductive Step where
  | mkdir (p : String)
  | writeFile (p : String)
  | writeBinaryFile (p : String)
  | removeTreeStep (p : String)
  | progress (filename : String) (current total percentage : Nat)
  | attempt (fullPath : String) (n : Nat) (o : AttemptOutcome)
  | wait (ms : Nat)
  | exec (cmd : String)
  | toastError (msg : String)
  | toastErrorDesc (msg desc : String)
  | toastSuccess (msg : String)
  | complete (instanceName path : String)
  | errorEvent (msg : String)
deriving Repr, DecidableEq

/-- Classifiers over `Step`. -/
def isMkdir : Step → Bool
  | .mkdir _ => true
  | _ => false

def isWriteStep : Step → Bool
  | .mkdir _ => true
  | .writeFile _ => true
  | .writeBinaryFile _ => true
  | .removeTreeStep _ => true
  | _ => false

def isProgress : Step → Bool
  | .progress _ _ _ _ => true
  | _ => false

def isAttemptStep : Step → Bool
  | .attempt _ _ _ => true
  | _ => false

def isExec : Step → Bool
  | .exec _ => true
  | _ => false

def isSummaryToast : Step → Bool
  | .toastErrorDesc _ _ => true
  | _ => false

/-- Keep every step that is not a directory creation. -/
def notMkdir (s : Step) : Bool := !(isMkdir s)

/-- The world an install run acts on: the set of existing filesystem
paths, and the parsed content of the generic launcher's profile store
(`none` when `launcher_profiles.json` does not exist). -/
structure World where
  fs : List String
  store : Option ProfileStore
deriving Repr, DecidableEq

/-- `filesystem.remove` on a directory tree: drop the path and everything
below it. -/
def removeTree (p : String) (fs : List String) : List String :=
  fs.filter (fun q => !(q == p || strStartsWith q (p ++ "/")))

/-- create.ts lines 288-293 pattern: create a directory only when it does
not exist yet, recording the step. -/
def mkdirIfMissing (p : String) (fs : List String) : List String × List Step :=
  if fs.contains p then (fs, []) else (p :: fs, [Step.mkdir p])

/-- The curl command of create.ts line 157 (no `encodeURI` there). -/
def downloadCmd (fullPath downloadUrl : String) : String :=
  "curl -X GET -L --fail --silent --show-error -H \"Accept: application/octet-stream\" -o \"" ++
    fullPath ++ "\" \"" ++ API_URL ++ downloadUrl ++ "\""

/-- The curl command of `downloadMinecraftFiles` (create.ts line 185). -/
def clientCmd (d : InstanceDataM) (minecraftPath : String) : String :=
  "curl -X GET -L -o \"" ++ joinPath minecraftPath "client.jar" ++ "\" \"" ++
    d.download_urls.client_jar ++ "\""

/-- Trace items produced inside `downloadWithRetry`. -/
inductive RetryStep where
  | attempt (n : Nat) (o : AttemptOutcome)
  | wait (ms : Nat)
  | failToast (msg : String)
deriving Repr, DecidableEq

def isRetryAttempt : RetryStep → Bool
  | .attempt _ _ => true
  | _ => false

/-- Lift the retry-local trace into the global trace, tagging attempts
with the file's full target path. -/
def liftRetry (fullPath : String) : RetryStep → Step
  | .attempt n o => Step.attempt fullPath n o
  | .wait ms => Step.wait ms
  | .failToast msg => Step.toastError msg

/-- The retry loop of create.ts lines 98-122.  `o` gives the outside
world's outcome of the numbered attempt; `fuel` counts the remaining
loop iterations (`maxRetries - attempt + 1`).  On final failure the
per-file `toast.error` of line 115 is recorded; falling out of the loop
returns `false` (line 123). -/
def retryGo (o : Nat → AttemptOutcome) (fn : String) (maxRetries : Nat) :
    Nat → Nat → Bool × List RetryStep
  | _, 0 => (false, [])
  | attempt, fuel + 1 =>
    let out := o attempt
    if attemptSucceeds out then (true, [RetryStep.attempt attempt out])
    else if attempt == maxRetries then
      (false, [RetryStep.attempt attempt out,
               RetryStep.failToast ("Failed to download " ++ fn)])
    else
      let r := retryGo o fn maxRetries (attempt + 1) fuel
      (r.1, RetryStep.attempt attempt out :: RetryStep.wait (attempt * 1000) :: r.2)

/-- `downloadWithRetry` of create.ts line 97 (the command string and the
stat target are abstracted into the per-attempt oracle `o`). -/
def downloadWithRetry (o : Nat → AttemptOutcome) (fn : String) (maxRetries : Nat := 3) :
    Bool × List RetryStep :=
  retryGo o fn maxRetries 1 maxRetries

/-- The result of the `downloadFiles` loop body (create.ts lines 134-165):
final path set, final running counter, the `failedDownloads` list, and
the trace. -/
structure DlResult where
  fs : List String
  cnt : Nat
  failed : List String
  steps : List Step
deriving Repr, DecidableEq

/-- The per-file loop of `downloadFiles` (create.ts lines 136-165).
`O` maps a curl command to the per-attempt outcome oracle of that
transfer.  Index entries only advance the counter; each other file gets
its parent directory ensured, a progress event (dispatched before the
download), and the retried transfer. -/
def downloadFilesGo (O : String → Nat → AttemptOutcome) (targetPath : String)
    (totalFiles : Nat) : List FileEntryM → List String → Nat → DlResult
  | [], fs, cnt => ⟨fs, cnt, [], []⟩
  | f :: rest, fs, cnt =>
    if isIndex f then downloadFilesGo O targetPath totalFiles rest fs (cnt + 1)
    else
      let fullPath := joinPath targetPath f.filename
      let dirPath := dirname fullPath
      let md := mkdirIfMissing dirPath fs
      let ev := Step.progress f.filename (cnt + 1) totalFiles
        (mathRound ((cnt + 1) * 100) totalFiles)
      let r := downloadWithRetry (O (downloadCmd fullPath f.download_url)) f.filename 3
      let fs2 := if r.1 then fullPath :: md.1 else md.1
      let rest' := downloadFilesGo O targetPath totalFiles rest fs2 (cnt + 1)
      ⟨rest'.fs, rest'.cnt,
       (if r.1 then rest'.failed else f.filename :: rest'.failed),
       md.2 ++ ev :: (r.2.map (liftRetry fullPath)) ++ rest'.steps⟩

/-- The summary message of create.ts line 168. -/
def failMessage (failed : List String) : String :=
  if failed.length == 1 then "Failed to download: " ++ failed.headD ""
  else "Failed to download " ++ toString failed.length ++
    " files. Check the console for details."

/-- `downloadFiles` of create.ts line 133.  Note that it returns no value
to its caller (void): the failure list stays local and only feeds the
per-category summary toast of lines 167-175. -/
def downloadFiles (O : String → Nat → AttemptOutcome) (targetPath : String)
    (files : List FileEntryM) (fs : List String) (currentFileCount totalFiles : Nat) :
    List String × List Step :=
  let r := downloadFilesGo O targetPath totalFiles files fs currentFileCount
  (r.fs,
   r.steps ++
     (if r.failed.length > 0 then
        [Step.toastErrorDesc (failMessage r.failed)
          "Some files might be missing from the installation"]
      else []))

/-- The pure store transformation of `updateLauncherProfiles`
(create.ts lines 52-78): read-or-initialize the store and upsert the
profile keyed by the instance slug.  `now` stands for
`new Date().toISOString()` and `icon` for the embedded base64 image. -/
def upsertProfile (now icon instanceName instancePath : String)
    (javaArgs : Option String) (store : Option ProfileStore) : ProfileStore :=
  let profiles := store.getD defaultStore
  let prof : Profile :=
    { created := now, icon := icon, name := instanceName, lastUsed := now,
      lastVersionId := instanceName, gameDir := instancePath, type := "custom",
      javaArgs := javaArgs }
  { profiles with profiles := upsert (profileId instanceName) prof profiles.profiles }

/-- `updateLauncherProfiles` of create.ts line 48: the store
transformation plus the write-back of line 81. -/
def updateLauncherProfiles (now icon minecraftPath instanceName instancePath : String)
    (javaArgs : Option String) (store : Option ProfileStore) :
    ProfileStore × List Step :=
  (upsertProfile now icon instanceName instancePath javaArgs store,
   [Step.writeFile (joinPath minecraftPath "launcher_profiles.json")])

/-- `updateLauncherProfiles` of instance.ts line 239: same upsert but
with `gameDir` set to `path.join(instancePath, '.minecraft')` and no
javaArgs, followed by the first-install-wins version-metadata write
(lines 259-264; the generated JSON content is external to the claims). -/
def updateLauncherProfilesInstance (now icon minecraftPath : String)
    (d : InstanceDataM) (instancePath : String) (store : Option ProfileStore)
    (fs : List String) : ProfileStore × List Step :=
  let profilesPath := joinPath minecraftPath "launcher_profiles.json"
  let profiles := store.getD defaultStore
  let prof : Profile :=
    { created := now, icon := icon, name := d.name, lastUsed := now,
      lastVersionId := d.name, gameDir := joinPath instancePath ".minecraft",
      type := "custom", javaArgs := none }
  let store' := { profiles with
    profiles := upsert (profileId d.name) prof profiles.profiles }
  let versionFolderPath := joinPath (joinPath minecraftPath "versions") d.name
  if fs.contains versionFolderPath then (store', [Step.writeFile profilesPath])
  else
    (store',
     [Step.writeFile profilesPath, Step.mkdir versionFolderPath,
      Step.writeFile (joinPath versionFolderPath (d.name ++ ".json"))])

/-- First OS switch of create.ts lines 221-233: the base path. -/
def createBasePath (homeDir osTag : String) : Except String String :=
  if osTag == "Windows" then
    Except.ok (joinPath (joinPath homeDir "AppData") "Roaming")
  else if osTag == "Darwin" then
    Except.ok (joinPath (joinPath homeDir "Library") "Application Support")
  else if osTag == "Linux" then Except.ok homeDir
  else Except.error "Unsupported operating system"

/-- Second OS switch of create.ts lines 238-250: the minecraft path. -/
def createMinecraftPathOf (basePath osTag : String) : Except String String :=
  if osTag == "Windows" then Except.ok (joinPath basePath ".minecraft")
  else if osTag == "Darwin" then Except.ok (joinPath basePath "minecraft")
  else if osTag == "Linux" then Except.ok (joinPath basePath ".minecraft")
  else Except.error "Unsupported operating system"

/-- Third OS switch of create.ts lines 259-271: the PrismLauncher path. -/
def createPrismPathOf (basePath osTag : String) : Except String String :=
  if osTag == "Windows" then Except.ok (joinPath basePath "PrismLauncher")
  else if osTag == "Darwin" then Except.ok (joinPath basePath "PrismLauncher")
  else if osTag == "Linux" then
    Except.ok (joinPath (joinPath (joinPath basePath ".local") "share") "PrismLauncher")
  else Except.error "Unsupported operating system"

/-- `getBasePath` of instance.ts line 53 (`env` models `os.getEnv`). -/
def getBasePath (env : String → String) (osTag : String) : Except String String :=
  let homeDir := env "HOME"
  if osTag == "Windows" then Except.ok (env "APPDATA")
  else if osTag == "Darwin" then
    Except.ok (joinPath (joinPath homeDir "Library") "Application Support")
  else if osTag == "Linux" then Except.ok homeDir
  else Except.error "Unsupported operating system"

/-- `getMinecraftPath` of instance.ts line 72. -/
def getMinecraftPath (basePath osTag : String) : Except String String :=
  if osTag == "Windows" || osTag == "Linux" then
    Except.ok (joinPath basePath ".minecraft")
  else if osTag == "Darwin" then Except.ok (joinPath basePath "minecraft")
  else Except.error "Unsupported operating system"

/-- `getPrismLauncherPath` of instance.ts line 89. -/
def getPrismLauncherPath (basePath osTag : String) : Except String String :=
  if osTag == "Windows" || osTag == "Darwin" then
    Except.ok (joinPath basePath "PrismLauncher")
  else if osTag == "Linux" then
    Except.ok (joinPath (joinPath (joinPath basePath ".local") "share") "PrismLauncher")
  else Except.error "Unsupported operating system"

/-- The instance path resolution of instance.ts lines 292-294. -/
def instanceResolvedPath (env : String → String) (osTag itype name : String) :
    Except String String :=
  match getBasePath env osTag with
  | .error e => .error e
  | .ok basePath =>
    if itype == "minecraft" then
      (getMinecraftPath basePath osTag).map
        (fun mc => joinPath (joinPath mc "instances") name)
    else
      (getPrismLauncherPath basePath osTag).map
        (fun pp => joinPath (joinPath pp "instances") name)

/-- Result of the config-writing phase of `createMinecraftInstance`. -/
structure CfgResult where
  fs : List String
  store : Option ProfileStore
  steps : List Step
deriving Repr, DecidableEq

/-- create.ts lines 296-344: write the launcher-specific configuration.
For the prism branch the `instance.cfg` / `mmc-pack.json` contents
(`generatePrismConfig`, the component stack) are opaque to the claims, so
only the writes are recorded; the icon is copied exactly once.  For the
generic branch `instance.json` is written and the launcher profile store
is updated through `updateLauncherProfiles` with
`-Xmx${recommended_memory}` as javaArgs (line 343). -/
def configPhase (now icon : String) (d : InstanceDataM)
    (itype minecraftPath prismPath instancePath : String)
    (fs : List String) (store : Option ProfileStore) : CfgResult :=
  if itype == "prism" then
    let cfgPath := joinPath instancePath "instance.cfg"
    let packPath := joinPath instancePath "mmc-pack.json"
    let iconPath := joinPath (joinPath prismPath "icons") "communivents.png"
    let fs1 := packPath :: cfgPath :: fs
    if fs1.contains iconPath then
      ⟨fs1, store, [Step.writeFile cfgPath, Step.writeFile packPath]⟩
    else
      ⟨iconPath :: fs1, store,
       [Step.writeFile cfgPath, Step.writeFile packPath,
        Step.writeBinaryFile iconPath]⟩
  else
    let jsonPath := joinPath instancePath "instance.json"
    let up := updateLauncherProfiles now icon minecraftPath d.name instancePath
      (some ("-Xmx" ++ d.java.recommended_memory)) store
    ⟨joinPath minecraftPath "launcher_profiles.json" :: jsonPath :: fs,
     some up.1, Step.writeFile jsonPath :: up.2⟩

/-- Result of the category download loop. -/
structure CatResult where
  fs : List String
  cnt : Nat
  steps : List Step
deriving Repr, DecidableEq

/-- The per-category loop of create.ts lines 360-369: for each category
with a non-empty list, ensure the category directory, run
`downloadFiles`, then advance the outer counter by the category's
non-index file count. -/
def downloadCategories (O : String → Nat → AttemptOutcome) (minecraftDir : String)
    (totalFiles : Nat) : List (String × List FileEntryM) → List String → Nat → CatResult
  | [], fs, cnt => ⟨fs, cnt, []⟩
  | (ty, files) :: rest, fs, cnt =>
    if files.length > 0 then
      let targetPath := joinPath minecraftDir ty
      let md := mkdirIfMissing targetPath fs
      let dl := downloadFiles O targetPath files md.1 cnt totalFiles
      let cnt' := cnt + (files.filter (fun f => !(isIndex f))).length
      let r := downloadCategories O minecraftDir totalFiles rest dl.1 cnt'
      ⟨r.fs, r.cnt, md.2 ++ dl.2 ++ r.steps⟩
    else downloadCategories O minecraftDir totalFiles rest fs cnt

/-- `downloadMinecraftFiles` of create.ts line 183: a single
`os.execCommand` whose result is discarded — no retry, no status or
stats inspection. -/
def downloadMinecraftFiles (d : InstanceDataM) (minecraftPath : String) : List Step :=
  [Step.exec (clientCmd d minecraftPath)]

/-- create.ts lines 287-381: everything after the existing-instance
check.  `ce` is the outcome of the client-jar transfer; the source
discards it, so it is never consulted. -/
def installBody (now icon : String) (O : String → Nat → AttemptOutcome)
    (ce : ExecResult) (d : InstanceDataM)
    (itype minecraftPath prismPath instancePath : String) (w : World) :
    Except String Bool × World × List Step :=
  let md1 := mkdirIfMissing instancePath w.fs
  let minecraftDir := joinPath instancePath ".minecraft"
  let md2 := mkdirIfMissing minecraftDir md1.1
  let cfg := configPhase now icon d itype minecraftPath prismPath instancePath md2.1 w.store
  let totalFiles := ((allFiles d.files).filter (fun f => !(isIndex f))).length
  let dl := downloadCategories O minecraftDir totalFiles (categoryList d.files) cfg.fs 0
  let clientSteps := if d.loader.type == "vanilla" then downloadMinecraftFiles d minecraftDir else []
  (Except.ok true, ⟨dl.fs, cfg.store⟩,
   md1.2 ++ md2.2 ++ cfg.steps ++ dl.steps ++ clientSteps ++
     [Step.complete d.name instancePath,
      Step.toastSuccess ("Created \"" ++ d.name ++ "\" instance!")])

/-- `createMinecraftInstance` of create.ts line 212.  Path resolution
errors are caught by the surrounding try/catch, published as an error
event and re-raised (lines 382-390); an existing instance path without
force returns `false` with no mutation (lines 276-285). -/
def createMinecraftInstance (env : String → String) (osTag now icon : String)
    (O : String → Nat → AttemptOutcome) (ce : ExecResult) (d : InstanceDataM)
    (installationType : String) (forceInstallation : Bool) (w : World) :
    Except String Bool × World × List Step :=
  match createBasePath (env "HOME") osTag with
  | .error e => (.error e, w, [Step.errorEvent e])
  | .ok basePath =>
    match createMinecraftPathOf basePath osTag with
    | .error e => (.error e, w, [Step.errorEvent e])
    | .ok minecraftPath =>
      match (if installationType == "minecraft" then Except.ok ""
             else createPrismPathOf basePath osTag : Except String String) with
      | .error e => (.error e, w, [Step.errorEvent e])
      | .ok prismPath =>
        let instancePath :=
          if installationType == "minecraft" then
            joinPath (joinPath minecraftPath "instances") d.name
          else joinPath (joinPath prismPath "instances") d.name
        if w.fs.contains instancePath then
          if forceInstallation then
            let r := installBody now icon O ce d installationType minecraftPath
              prismPath instancePath ⟨removeTree instancePath w.fs, w.store⟩
            (r.1, r.2.1, Step.removeTreeStep instancePath :: r.2.2)
          else (.ok false, w, [])
        else
          installBody now icon O ce d installationType minecraftPath prismPath
            instancePath w

/-- The instance path `createMinecraftInstance` resolves (create.ts lines
215-274), factored for stating theorems about the existing-instance
check. -/
def instancePathOf (env : String → String) (osTag itype name : String) :
    Except String String :=
  match createBasePath (env "HOME") osTag with
  | .error e => .error e
  | .ok basePath =>
    match createMinecraftPathOf basePath osTag with
    | .error e => .error e
    | .ok minecraftPath =>
      match (if itype == "minecraft" then Except.ok ""
             else createPrismPathOf basePath osTag : Except String String) with
      | .error e => .error e
      | .ok prismPath =>
        .ok (if itype == "minecraft" then
               joinPath (joinPath minecraftPath "instances") name
             else joinPath (joinPath prismPath "instances") name)

/-- Specification-side reconstruction of the event trace `downloadFiles`
produces, from the spec's words: per non-index file, one progress event
followed by that file's download attempt steps (index entries only
advance the counter). -/
def fileBlocks (O : String → Nat → AttemptOutcome) (targetPath : String)
    (totalFiles : Nat) : List FileEntryM → Nat → List Step
  | [], _ => []
  | f :: rest, cnt =>
    if isIndex f then fileBlocks O targetPath totalFiles rest (cnt + 1)
    else
      let fullPath := joinPath targetPath f.filename
      (Step.progress f.filename (cnt + 1) totalFiles
          (mathRound ((cnt + 1) * 100) totalFiles) ::
        ((downloadWithRetry (O (downloadCmd fullPath f.download_url)) f.filename 3).2.map
          (liftRetry fullPath))) ++
      fileBlocks O targetPath totalFiles rest (cnt + 1)

/-- Number of attempts recorded in a retry trace. -/
def attemptCount (l : List RetryStep) : Nat := (l.filter isRetryAttempt).length

/-- Concrete environment: `HOME` is `/h`, everything else empty. -/
def env0 : String → String := fun k => if k == "HOME" then "/h" else ""

/-- Concrete environment distinguishing `APPDATA` from
`HOME/AppData/Roaming`. -/
def envX : String → String :=
  fun k => if k == "APPDATA" then "X" else if k == "HOME" then "H" else ""

/-- A successful attempt outcome: exit 0, regular non-empty file. -/
def goodOut : AttemptOutcome := ⟨⟨0, "", ""⟩, some ⟨true, 5⟩⟩

/-- A failing attempt outcome: curl exits 22. -/
def badOut : AttemptOutcome := ⟨⟨22, "curl: (22) error", ""⟩, none⟩

/-- Oracle under which every transfer succeeds immediately. -/
def O0 : String → Nat → AttemptOutcome := fun _ _ => goodOut

/-- Oracle under which every transfer fails. -/
def Ofail : String → Nat → AttemptOutcome := fun _ _ => badOut

/-- Per-attempt oracle failing on the first attempt, succeeding after. -/
def failOnceOracle : Nat → AttemptOutcome := fun k => if k == 1 then badOut else goodOut

/-- A client-jar transfer outcome (discarded by the code). -/
def ce0 : ExecResult := ⟨0, "", ""⟩

/-- The empty world: nothing on disk, no profile store. -/
def w0 : World := ⟨[], none⟩

/-- Manifest whose `mods` category has an index marker before its one
real file — the spec §8 end-to-end scenario. -/
def d0 : InstanceDataM :=
  { name := "n", description := "", minecraft_version := "1.20.1",
    loader := ⟨"fabric", "0.15.0"⟩, java := ⟨"17", "4G"⟩,
    download_urls := ⟨"http://c/client.jar", "http://c/assets"⟩,
    files := ⟨[⟨".index/modrinth.index.json", "/i", "h0", 1⟩, ⟨"a.jar", "/a", "h1", 3⟩],
              [], [], [], [], [], [], [], [], [], []⟩ }

/-- Manifest with no files at all, vanilla loader, named `Pack`. -/
def dPack : InstanceDataM :=
  { name := "Pack", description := "", minecraft_version := "1.20.1",
    loader := ⟨"vanilla", ""⟩, java := ⟨"17", "4G"⟩,
    download_urls := ⟨"http://c/client.jar", "http://c/assets"⟩,
    files := ⟨[], [], [], [], [], [], [], [], [], [], []⟩ }

/-- Manifest with one file in `mods` and one in `config`. -/
def dFail : InstanceDataM :=
  { name := "n2", description := "", minecraft_version := "1.20.1",
    loader := ⟨"fabric", "0.15.0"⟩, java := ⟨"17", "4G"⟩,
    download_urls := ⟨"http://c/client.jar", "http://c/assets"⟩,
    files := ⟨[⟨"a.jar", "/a", "h1", 3⟩], [], [], [], [⟨"c.cfg", "/c", "h2", 2⟩],
              [], [], [], [], [], []⟩ }

/-- A single ordinary manifest entry. -/
def fileA : FileEntryM := ⟨"a.jar", "/a", "h1", 3⟩

/-- World for the conflict law: the resolved instance path of `d0` on
Linux under `env0` already exists. -/
def wC1 : World := ⟨["/h/.minecraft/instances/n"], none⟩

/-- A pre-populated profile store holding an unrelated entry. -/
def preProfile : Profile :=
  { created := "t0", icon := "i0", name := "Other", lastUsed := "t0",
    lastVersionId := "Other", gameDir := "/elsewhere", type := "custom",
    javaArgs := none }

/-- World whose profile store already has an unrelated entry. -/
def wPre : World := ⟨[], some ⟨[("other", preProfile)], [], 3⟩⟩

/-- The instance path `createMinecraftInstance` builds from the resolved
minecraft/prism paths (create.ts lines 256 and 272). -/
def resolvedInstancePath (itype mp pp name : String) : String :=
  if itype == "minecraft" then joinPath (joinPath mp "instances") name
  else joinPath (joinPath pp "instances") name

theorem attemptSucceeds_iff (a : AttemptOutcome) :
    attemptSucceeds a = true ↔
      (a.exec.exitCode = 0 ∧ ∃ s, a.stats = some s ∧ s.isFile = true ∧ s.size ≠ 0) := by
  unfold attemptSucceeds
  cases h : a.stats <;> simp [h, bne_iff_ne]

theorem downloadWithRetry_three (o : Nat → AttemptOutcome) (fn : String) :
    downloadWithRetry o fn 3 =
      (if attemptSucceeds (o 1) then (true, [RetryStep.attempt 1 (o 1)])
       else if attemptSucceeds (o 2) then
         (true, [RetryStep.attempt 1 (o 1), RetryStep.wait 1000,
                 RetryStep.attempt 2 (o 2)])
       else if attemptSucceeds (o 3) then
         (true, [RetryStep.attempt 1 (o 1), RetryStep.wait 1000,
                 RetryStep.attempt 2 (o 2), RetryStep.wait 2000,
                 RetryStep.attempt 3 (o 3)])
       else
         (false, [RetryStep.attempt 1 (o 1), RetryStep.wait 1000,
                  RetryStep.attempt 2 (o 2), RetryStep.wait 2000,
                  RetryStep.attempt 3 (o 3),
                  RetryStep.failToast ("Failed to download " ++ fn)])) := by
  by_cases h1 : attemptSucceeds (o 1) <;> by_cases h2 : attemptSucceeds (o 2) <;>
    by_cases h3 : attemptSucceeds (o 3) <;>
      simp [downloadWithRetry, retryGo, h1, h2, h3]

/-- C2: `downloadWithRetry` makes at most 3 attempts; it reports success
exactly when some attempt (numbered 1..3) has a zero exit status and a
regular, non-empty target file; when every attempt fails it performs
exactly attempts 1,2,3 with waits of 1000 and 2000 time units between
them and reports failure; when the first attempt fails and the second
succeeds it stops after attempt 2 having waited 1000; and in
`downloadFiles` a file whose retried download succeeds leaves no failure
record while one whose retried download fails is recorded. -/
theorem c2_retry_law (o : Nat → AttemptOutcome) (fn : String)
    (O : String → Nat → AttemptOutcome) :
    attemptCount (downloadWithRetry o fn 3).2 ≤ 3
    ∧ ((downloadWithRetry o fn 3).1 = true ↔
        ∃ k, 1 ≤ k ∧ k ≤ 3 ∧ ((o k).exec.exitCode = 0 ∧
          ∃ s, (o k).stats = some s ∧ s.isFile = true ∧ s.size ≠ 0))
    ∧ ((∀ k, 1 ≤ k → k ≤ 3 → attemptSucceeds (o k) = false) →
        downloadWithRetry o fn 3 =
          (false, [RetryStep.attempt 1 (o 1), RetryStep.wait 1000,
                   RetryStep.attempt 2 (o 2), RetryStep.wait 2000,
                   RetryStep.attempt 3 (o 3),
                   RetryStep.failToast ("Failed to download " ++ fn)]))
    ∧ ((attemptSucceeds (o 1) = false ∧ attemptSucceeds (o 2) = true) →
        downloadWithRetry o fn 3 =
          (true, [RetryStep.attempt 1 (o 1), RetryStep.wait 1000,
                  RetryStep.attempt 2 (o 2)]))
    ∧ (∀ tp tot (f : FileEntryM) fs cnt, isIndex f = false →
        (downloadWithRetry (O (downloadCmd (joinPath tp f.filename) f.download_url))
            f.filename 3).1 = true →
        (downloadFilesGo O tp tot [f] fs cnt).failed = [])
    ∧ (∀ tp tot (f : FileEntryM) fs cnt, isIndex f = false →
        (downloadWithRetry (O (downloadCmd (joinPath tp f.filename) f.download_url))
            f.filename 3).1 = false →
        (downloadFilesGo O tp tot [f] fs cnt).failed = [f.filename]) := by
  refine ⟨?_, ?_, ?_, ?_, ?_, ?_⟩
  · rw [downloadWithRetry_three]
    by_cases h1 : attemptSucceeds (o 1) <;> by_cases h2 : attemptSucceeds (o 2) <;>
      by_cases h3 : attemptSucceeds (o 3) <;>
        simp [h1, h2, h3, attemptCount, isRetryAttempt]
  · rw [downloadWithRetry_three]
    by_cases h1 : attemptSucceeds (o 1)
    · simp only [h1, if_true]
      simp only [true_iff]
      exact ⟨1, le_refl 1, by omega, (attemptSucceeds_iff (o 1)).mp h1⟩
    · by_cases h2 : attemptSucceeds (o 2)
      · simp only [h1, h2, if_true, if_false, Bool.false_eq_true]
        simp only [true_iff]
        exact ⟨2, by omega, by omega, (attemptSucceeds_iff (o 2)).mp h2⟩
      · by_cases h3 : attemptSucceeds (o 3)
        · simp only [h1, h2, h3, if_true, if_false, Bool.false_eq_true]
          simp only [true_iff]
          exact ⟨3, by omega, by omega, (attemptSucceeds_iff (o 3)).mp h3⟩
        · simp only [h1, h2, h3, if_false, Bool.false_eq_true]
          simp only [false_iff]
          rintro ⟨k, hk1, hk3, hc⟩
          have hs := (attemptSucceeds_iff (o k)).mpr hc
          interval_cases k <;> simp_all
  · intro h
    rw [downloadWithRetry_three]
    have e1 := h 1 (by omega) (by omega)
    have e2 := h 2 (by omega) (by omega)
    have e3 := h 3 (by omega) (by omega)
    simp [e1, e2, e3]
  · rintro ⟨ha, hb⟩
    rw [downloadWithRetry_three]
    simp [ha, hb]
  · intro tp tot f fs cnt hidx hs
    simp [downloadFilesGo, hidx, hs]
  · intro tp tot f fs cnt hidx hs
    simp [downloadFilesGo, hidx, hs]

/-- Witness for C2: under the concrete failing-then-succeeding oracle,
the retried download reports success after the second attempt, with one
1000-unit wait recorded and no third attempt. -/
theorem c2_retry_law_witness :
    downloadWithRetry failOnceOracle "a.jar" 3 =
      (true, [RetryStep.attempt 1 badOut, RetryStep.wait 1000,
              RetryStep.attempt 2 goodOut]) := by
  have h := (c2_retry_law failOnceOracle "a.jar" O0).2.2.2.1 ⟨by decide, by decide⟩
  rw [h]
  decide

theorem instancePathOf_spec (env : String → String) (osTag itype name ip : String)
    (hip : instancePathOf env osTag itype name = .ok ip) :
    ∃ bp mp pp, createBasePath (env "HOME") osTag = .ok bp ∧
      createMinecraftPathOf bp osTag = .ok mp ∧
      (if itype == "minecraft" then Except.ok ""
       else createPrismPathOf bp osTag : Except String String) = .ok pp ∧
      ip = resolvedInstancePath itype mp pp name := by
  unfold instancePathOf at hip
  split at hip
  · simp at hip
  next bp h1 =>
    split at hip
    · simp at hip
    next mp h2 =>
      split at hip
      · simp at hip
      next pp h3 =>
        simp only [Except.ok.injEq] at hip
        exact ⟨bp, mp, pp, h1, h2, h3, by rw [← hip]; rfl⟩

theorem createMinecraftInstance_reduce (env : String → String)
    (osTag now icon : String) (O : String → Nat → AttemptOutcome) (ce : ExecResult)
    (d : InstanceDataM) (itype : String) (force : Bool) (w : World)
    (bp mp pp : String)
    (h1 : createBasePath (env "HOME") osTag = .ok bp)
    (h2 : createMinecraftPathOf bp osTag = .ok mp)
    (h3 : (if itype == "minecraft" then Except.ok ""
           else createPrismPathOf bp osTag : Except String String) = .ok pp) :
    createMinecraftInstance env osTag now icon O ce d itype force w =
      (if w.fs.contains (resolvedInstancePath itype mp pp d.name) then
         if force then
           ((installBody now icon O ce d itype mp pp
               (resolvedInstancePath itype mp pp d.name)
               ⟨removeTree (resolvedInstancePath itype mp pp d.name) w.fs, w.store⟩).1,
            (installBody now icon O ce d itype mp pp
               (resolvedInstancePath itype mp pp d.name)
               ⟨removeTree (resolvedInstancePath itype mp pp d.name) w.fs, w.store⟩).2.1,
            Step.removeTreeStep (resolvedInstancePath itype mp pp d.name) ::
              (installBody now icon O ce d itype mp pp
                 (resolvedInstancePath itype mp pp d.name)
                 ⟨removeTree (resolvedInstancePath itype mp pp d.name) w.fs, w.store⟩).2.2)
         else (Except.ok false, w, [])
       else installBody now icon O ce d itype mp pp
         (resolvedInstancePath itype mp pp d.name) w) := by
  unfold createMinecraftInstance resolvedInstancePath
  rw [h1]
  simp only []
  rw [h2]
  simp only []
  rw [h3]

theorem installBody_fst (now icon : String) (O : String → Nat → AttemptOutcome)
    (ce : ExecResult) (d : InstanceDataM) (itype mp pp ip : String) (w : World) :
    (installBody now icon O ce d itype mp pp ip w).1 = Except.ok true := rfl

theorem configPhase_store (now icon : String) (d : InstanceDataM)
    (itype mp pp ip : String) (fs : List String) (store : Option ProfileStore) :
    (configPhase now icon d itype mp pp ip fs store).store =
      (if itype == "prism" then store
       else some (upsertProfile now icon d.name ip
         (some ("-Xmx" ++ d.java.recommended_memory)) store)) := by
  by_cases h : itype == "prism"
  · simp only [configPhase, h, if_true]
    split <;> rfl
  · simp [configPhase, h, updateLauncherProfiles]

theorem installBody_store (now icon : String) (O : String → Nat → AttemptOutcome)
    (ce : ExecResult) (d : InstanceDataM) (itype mp pp ip : String) (w : World) :
    (installBody now icon O ce d itype mp pp ip w).2.1.store =
      (if itype == "prism" then w.store
       else some (upsertProfile now icon d.name ip
         (some ("-Xmx" ++ d.java.recommended_memory)) w.store)) := by
  show (configPhase now icon d itype mp pp ip _ w.store).store = _
  exact configPhase_store now icon d itype mp pp ip _ w.store

/-- C1: for every manifest, launcher kind and world in which the resolved
instance path already exists, `createMinecraftInstance` with
`force = false` returns the "not created" result `false`, leaves the
world untouched and records no step at all — in particular no directory
is created, no file is written or removed — and it does not throw (the
result is `Except.ok`, not `Except.error`). -/
theorem c1_conflict_no_writes (env : String → String) (osTag now icon : String)
    (O : String → Nat → AttemptOutcome) (ce : ExecResult) (d : InstanceDataM)
    (itype : String) (w : World) (ip : String)
    (hip : instancePathOf env osTag itype d.name = .ok ip)
    (hex : w.fs.contains ip = true) :
    createMinecraftInstance env osTag now icon O ce d itype false w =
      (Except.ok false, w, []) := by
  obtain ⟨bp, mp, pp, h1, h2, h3, hipEq⟩ :=
    instancePathOf_spec env osTag itype d.name ip hip
  rw [createMinecraftInstance_reduce env osTag now icon O ce d itype false w
    bp mp pp h1 h2 h3]
  rw [← hipEq, hex]
  rfl

/-- Witness for C1: with `d0`'s Linux instance path already on disk and
no force, the install returns `false` with an empty trace and an
unchanged world. -/
theorem c1_conflict_no_writes_witness :
    createMinecraftInstance env0 "Linux" "t" "i" O0 ce0 d0 "minecraft" false wC1 =
      (Except.ok false, wC1, []) :=
  c1_conflict_no_writes env0 "Linux" "t" "i" O0 ce0 d0 "minecraft" wC1
    "/h/.minecraft/instances/n" (by rfl) (by rfl)

theorem liftRetry_no_exec (fp : String) (l : List RetryStep) :
    (l.map (liftRetry fp)).filter isExec = [] := by
  induction l with
  | nil => rfl
  | cons h t ih => cases h <;> simp [liftRetry, isExec, ih]

theorem liftRetry_no_progress (fp : String) (l : List RetryStep) :
    (l.map (liftRetry fp)).filter isProgress = [] := by
  induction l with
  | nil => rfl
  | cons h t ih => cases h <;> simp [liftRetry, isProgress, ih]

theorem liftRetry_no_summary (fp : String) (l : List RetryStep) :
    (l.map (liftRetry fp)).filter isSummaryToast = [] := by
  induction l with
  | nil => rfl
  | cons h t ih => cases h <;> simp [liftRetry, isSummaryToast, ih]

theorem liftRetry_not_mkdir (fp : String) (l : List RetryStep) :
    (l.map (liftRetry fp)).filter notMkdir = l.map (liftRetry fp) := by
  apply List.filter_eq_self.mpr
  intro a ha
  obtain ⟨r, hr, rfl⟩ := List.mem_map.mp ha
  cases r <;> rfl

theorem notMkdir_progress (fn : String) (c t p : Nat) :
    notMkdir (Step.progress fn c t p) = true := rfl

theorem mkdirIfMissing_no_exec (p : String) (fs : List String) :
    (mkdirIfMissing p fs).2.filter isExec = [] := by
  unfold mkdirIfMissing; split <;> simp [isExec]

theorem mkdirIfMissing_no_progress (p : String) (fs : List String) :
    (mkdirIfMissing p fs).2.filter isProgress = [] := by
  unfold mkdirIfMissing; split <;> simp [isProgress]

theorem mkdirIfMissing_no_summary (p : String) (fs : List String) :
    (mkdirIfMissing p fs).2.filter isSummaryToast = [] := by
  unfold mkdirIfMissing; split <;> simp [isSummaryToast]

theorem mkdirIfMissing_mkdir_only (p : String) (fs : List String) :
    (mkdirIfMissing p fs).2.filter notMkdir = [] := by
  unfold mkdirIfMissing; split <;> simp [notMkdir, isMkdir]

theorem dlgo_no_exec (O : String → Nat → AttemptOutcome) (tp : String) (tot : Nat) :
    ∀ (files : List FileEntryM) (fs : List String) (cnt : Nat),
      (downloadFilesGo O tp tot files fs cnt).steps.filter isExec = [] := by
  intro files
  induction files with
  | nil => intro fs cnt; rfl
  | cons f rest ih =>
    intro fs cnt
    by_cases h : isIndex f
    · simp only [downloadFilesGo, h, if_true]
      exact ih fs (cnt + 1)
    · simp [downloadFilesGo, h, List.filter_append, mkdirIfMissing_no_exec,
        liftRetry_no_exec, isExec, ih]

theorem dlgo_no_summary (O : String → Nat → AttemptOutcome) (tp : String) (tot : Nat) :
    ∀ (files : List FileEntryM) (fs : List String) (cnt : Nat),
      (downloadFilesGo O tp tot files fs cnt).steps.filter isSummaryToast = [] := by
  intro files
  induction files with
  | nil => intro fs cnt; rfl
  | cons f rest ih =>
    intro fs cnt
    by_cases h : isIndex f
    · simp only [downloadFilesGo, h, if_true]
      exact ih fs (cnt + 1)
    · simp [downloadFilesGo, h, List.filter_append, mkdirIfMissing_no_summary,
        liftRetry_no_summary, isSummaryToast, ih]

theorem downloadFiles_no_exec (O : String → Nat → AttemptOutcome) (tp : String)
    (files : List FileEntryM) (fs : List String) (cnt tot : Nat) :
    (downloadFiles O tp files fs cnt tot).2.filter isExec = [] := by
  unfold downloadFiles
  simp only [List.filter_append, dlgo_no_exec]
  split <;> simp [isExec]

theorem dlcats_no_exec (O : String → Nat → AttemptOutcome) (mc : String) (tot : Nat) :
    ∀ (cats : List (String × List FileEntryM)) (fs : List String) (cnt : Nat),
      (downloadCategories O mc tot cats fs cnt).steps.filter isExec = [] := by
  intro cats
  induction cats with
  | nil => intro fs cnt; rfl
  | cons c rest ih =>
    intro fs cnt
    by_cases h : c.2.length > 0
    · simp [downloadCategories, h, List.filter_append, mkdirIfMissing_no_exec,
        downloadFiles_no_exec, ih]
    · simp [downloadCategories, h, ih]

theorem configPhase_no_exec (now icon : String) (d : InstanceDataM)
    (itype mp pp ip : String) (fs : List String) (store : Option ProfileStore) :
    (configPhase now icon d itype mp pp ip fs store).steps.filter isExec = [] := by
  unfold configPhase
  by_cases h : itype == "prism"
  · simp only [h, if_true]
    split <;> simp [isExec]
  · simp [h, updateLauncherProfiles, isExec]

theorem installBody_exec_vanilla (now icon : String) (O : String → Nat → AttemptOutcome)
    (ce : ExecResult) (d : InstanceDataM) (itype mp pp ip : String) (w : World)
    (hv : d.loader.type = "vanilla") :
    (installBody now icon O ce d itype mp pp ip w).2.2.filter isExec =
      [Step.exec (clientCmd d (joinPath ip ".minecraft"))] := by
  simp [installBody, hv, List.filter_append, mkdirIfMissing_no_exec,
    configPhase_no_exec, dlcats_no_exec, downloadMinecraftFiles, isExec]

theorem installBody_complete_mem (now icon : String) (O : String → Nat → AttemptOutcome)
    (ce : ExecResult) (d : InstanceDataM) (itype mp pp ip : String) (w : World) :
    Step.complete d.name ip ∈ (installBody now icon O ce d itype mp pp ip w).2.2 := by
  simp [installBody]

/-- C9: on a manifest with vanilla loader and a fresh instance path, the
whole install run issues exactly one raw transfer command — the
client-jar curl of `downloadMinecraftFiles`, which is not retried and is
distinct from the per-file retried downloads — the run's outcome is
entirely independent of that transfer's result (the code never inspects
its exit status nor the downloaded file), and the run still publishes
the completion event and returns `true`. -/
theorem c9_client_jar_single_attempt (env : String → String) (osTag now icon : String)
    (O : String → Nat → AttemptOutcome) (ce ce' : ExecResult) (d : InstanceDataM)
    (itype : String) (w : World) (ip : String)
    (hip : instancePathOf env osTag itype d.name = .ok ip)
    (hv : d.loader.type = "vanilla")
    (hfresh : w.fs.contains ip = false) :
    (createMinecraftInstance env osTag now icon O ce d itype false w).1 = Except.ok true
    ∧ (createMinecraftInstance env osTag now icon O ce d itype false w).2.2.filter isExec =
        [Step.exec (clientCmd d (joinPath ip ".minecraft"))]
    ∧ Step.complete d.name ip ∈
        (createMinecraftInstance env osTag now icon O ce d itype false w).2.2
    ∧ createMinecraftInstance env osTag now icon O ce d itype false w =
        createMinecraftInstance env osTag now icon O ce' d itype false w := by
  obtain ⟨bp, mp, pp, h1, h2, h3, hipEq⟩ :=
    instancePathOf_spec env osTag itype d.name ip hip
  have hr := createMinecraftInstance_reduce env osTag now icon O ce d itype false w
    bp mp pp h1 h2 h3
  have hr' := createMinecraftInstance_reduce env osTag now icon O ce' d itype false w
    bp mp pp h1 h2 h3
  rw [← hipEq] at hr hr'
  rw [hr, hr', hfresh]
  simp only [Bool.false_eq_true, if_false]
  exact ⟨installBody_fst now icon O ce d itype mp pp ip w,
    installBody_exec_vanilla now icon O ce d itype mp pp ip w hv,
    installBody_complete_mem now icon O ce d itype mp pp ip w, rfl⟩

/-- Witness for C9: the concrete vanilla manifest `dPack` installs to
completion with result `true` on a fresh world. -/
theorem c9_client_jar_single_attempt_witness :
    (createMinecraftInstance env0 "Linux" "t" "i" O0 ce0 dPack "minecraft" false w0).1 =
      Except.ok true :=
  (c9_client_jar_single_attempt env0 "Linux" "t" "i" O0 ce0 ce0 dPack "minecraft" w0
    "/h/.minecraft/instances/Pack" (by rfl) (by rfl) (by rfl)).1

theorem dlgo_events (O : String → Nat → AttemptOutcome) (tp : String) (tot : Nat) :
    ∀ (files : List FileEntryM) (fs : List String) (cnt : Nat),
      (downloadFilesGo O tp tot files fs cnt).steps.filter notMkdir =
        fileBlocks O tp tot files cnt := by
  intro files
  induction files with
  | nil => intro fs cnt; rfl
  | cons f rest ih =>
    intro fs cnt
    by_cases h : isIndex f
    · simp only [downloadFilesGo, fileBlocks, h, if_true]
      exact ih fs (cnt + 1)
    · simp only [downloadFilesGo, fileBlocks, h, Bool.false_eq_true, if_false,
        List.filter_append, List.filter_cons, notMkdir_progress, if_true,
        mkdirIfMissing_mkdir_only, liftRetry_not_mkdir, List.nil_append, ih,
        List.cons_append]

theorem dlgo_progress_count (O : String → Nat → AttemptOutcome) (tp : String) (tot : Nat) :
    ∀ (files : List FileEntryM) (fs : List String) (cnt : Nat),
      ((downloadFilesGo O tp tot files fs cnt).steps.filter isProgress).length =
        (files.filter (fun f => !(isIndex f))).length := by
  intro files
  induction files with
  | nil => intro fs cnt; rfl
  | cons f rest ih =>
    intro fs cnt
    by_cases h : isIndex f
    · simp only [downloadFilesGo, h, if_true, List.filter_cons]
      simp [h, ih]
    · simp [downloadFilesGo, h, List.filter_append, mkdirIfMissing_no_progress,
        liftRetry_no_progress, isProgress, ih]

theorem dlgo_failed (O : String → Nat → AttemptOutcome) (tp : String) (tot : Nat) :
    ∀ (files : List FileEntryM) (fs : List String) (cnt : Nat),
      (downloadFilesGo O tp tot files fs cnt).failed =
        (files.filter (fun f => !(isIndex f) &&
          !((downloadWithRetry (O (downloadCmd (joinPath tp f.filename) f.download_url))
              f.filename 3).1))).map FileEntryM.filename := by
  intro files
  induction files with
  | nil => intro fs cnt; rfl
  | cons f rest ih =>
    intro fs cnt
    by_cases hidx : isIndex f
    · simp [downloadFilesGo, hidx, ih]
    · by_cases hr : (downloadWithRetry
          (O (downloadCmd (joinPath tp f.filename) f.download_url)) f.filename 3).1
      · simp [downloadFilesGo, hidx, hr, ih]
      · simp [downloadFilesGo, hidx, hr, ih]

theorem downloadFiles_summary (O : String → Nat → AttemptOutcome) (tp : String)
    (files : List FileEntryM) (fs : List String) (cnt tot : Nat) :
    (downloadFiles O tp files fs cnt tot).2.filter isSummaryToast =
      (if (downloadFilesGo O tp tot files fs cnt).failed.isEmpty then []
       else [Step.toastErrorDesc
              (failMessage (downloadFilesGo O tp tot files fs cnt).failed)
              "Some files might be missing from the installation"]) := by
  unfold downloadFiles
  simp only [List.filter_append, dlgo_no_summary]
  cases hf : (downloadFilesGo O tp tot files fs cnt).failed with
  | nil => simp
  | cons a t => simp [isSummaryToast]

theorem create_result_ok (env : String → String) (osTag now icon : String)
    (O : String → Nat → AttemptOutcome) (ce : ExecResult) (d : InstanceDataM)
    (itype : String) (w : World) (ip : String)
    (hip : instancePathOf env osTag itype d.name = .ok ip)
    (hfresh : w.fs.contains ip = false) :
    (createMinecraftInstance env osTag now icon O ce d itype false w).1 =
      Except.ok true := by
  obtain ⟨bp, mp, pp, h1, h2, h3, hipEq⟩ :=
    instancePathOf_spec env osTag itype d.name ip hip
  have hr := createMinecraftInstance_reduce env osTag now icon O ce d itype false w
    bp mp pp h1 h2 h3
  rw [← hipEq] at hr
  rw [hr, hfresh]
  simp only [Bool.false_eq_true, if_false]
  exact installBody_fst now icon O ce d itype mp pp ip w

/-- C6 counterexample: on a one-file batch the trace of `downloadFiles`
is the progress event (position 0) followed by the download attempt
(position 1) — the progress event for a file is dispatched strictly
BEFORE that file's download attempts, refuting the claim that it is
dispatched strictly after the attempt sequence concludes. -/
theorem c6_progress_order_counterexample :
    (downloadFiles O0 "t" [fileA] ["t"] 0 1).2 =
      [Step.progress "a.jar" 1 1 100, Step.attempt "t/a.jar" 1 goodOut]
    ∧ (downloadFiles O0 "t" [fileA] ["t"] 0 1).2.findIdx isProgress = 0
    ∧ (downloadFiles O0 "t" [fileA] ["t"] 0 1).2.findIdx isAttemptStep = 1 :=
  ⟨rfl, rfl, rfl⟩

/-- C6 amended: exactly one progress event is emitted per non-index file
of a batch — the non-mkdir trace of `downloadFilesGo` is precisely, for
each non-index file in order, one progress event directly FOLLOWED by
that file's download attempt steps (`fileBlocks`), so the number of
progress events equals the number of non-index files and each file's
progress event precedes all of its download attempts. -/
theorem c6_progress_order_amended :
    (∀ (O : String → Nat → AttemptOutcome) (tp : String) (tot : Nat)
       (files : List FileEntryM) (fs : List String) (cnt : Nat),
       (downloadFilesGo O tp tot files fs cnt).steps.filter notMkdir =
         fileBlocks O tp tot files cnt)
    ∧ (∀ (O : String → Nat → AttemptOutcome) (tp : String) (tot : Nat)
       (files : List FileEntryM) (fs : List String) (cnt : Nat),
       ((downloadFilesGo O tp tot files fs cnt).steps.filter isProgress).length =
         (files.filter (fun f => !(isIndex f))).length) :=
  ⟨fun O tp tot files fs cnt => dlgo_events O tp tot files fs cnt,
   fun O tp tot files fs cnt => dlgo_progress_count O tp tot files fs cnt⟩

/-- C3: the spec requires the k-th non-index file's progress event to
carry `current = k` and `percentage = round(k / totalFiles * 100)`,
capped at 100 and monotone.  The code also increments the running
counter for `.index/` entries inside a category, so on the manifest `d0`
(mods = [.index/modrinth.index.json, a.jar], totalFiles = 1) the single
progress event of the whole run carries `current = 2` and
`percentage = 200` instead of the required `current = 1`,
`percentage = round(1/1*100) = 100` — the percentage also exceeding 100.
This is the spec's own §8 end-to-end scenario, so the code, not the
claim, is wrong here. -/
theorem c3_progress_counts_index_entries :
    ((createMinecraftInstance env0 "Linux" "t" "i" O0 ce0 d0 "minecraft"
        false w0).2.2.filter isProgress) =
      [Step.progress "a.jar" 2 1 200]
    ∧ mathRound (1 * 100) 1 = 100
    ∧ 100 < 200 :=
  ⟨rfl, rfl, by omega⟩

/-- C8 counterexample: with two categories each containing one file that
fails every attempt, the install run surfaces TWO failure summaries (one
per category, each in singular form), not the single install-wide
summary (which, for two failures, would have to be the count-based
message) that the claim describes. -/
theorem c8_failed_aggregation_counterexample :
    ((createMinecraftInstance env0 "Linux" "t" "i" Ofail ce0 dFail "minecraft"
        false w0).2.2.filter isSummaryToast) =
      [Step.toastErrorDesc "Failed to download: a.jar"
         "Some files might be missing from the installation",
       Step.toastErrorDesc "Failed to download: c.cfg"
         "Some files might be missing from the installation"]
    ∧ ((createMinecraftInstance env0 "Linux" "t" "i" Ofail ce0 dFail "minecraft"
        false w0).2.2.filter isSummaryToast).length = 2 :=
  ⟨rfl, rfl⟩

/-- C8 amended: `downloadFiles` returns nothing to its caller; its local
failure list is exactly the filenames of the non-index files whose
retried download returned failure, each category with failures surfaces
its own single summary toast (singular message for exactly one failure
in that category, count-based otherwise, via `failMessage`), and no
download failure ever fails the overall install: on a fresh instance
path the run returns `Except.ok true` under every download oracle. -/
theorem c8_failed_aggregation_amended :
    (∀ (O : String → Nat → AttemptOutcome) (tp : String) (tot : Nat)
       (files : List FileEntryM) (fs : List String) (cnt : Nat),
       (downloadFilesGo O tp tot files fs cnt).failed =
         (files.filter (fun f => !(isIndex f) &&
           !((downloadWithRetry (O (downloadCmd (joinPath tp f.filename) f.download_url))
               f.filename 3).1))).map FileEntryM.filename)
    ∧ (∀ (O : String → Nat → AttemptOutcome) (tp : String)
       (files : List FileEntryM) (fs : List String) (cnt tot : Nat),
       (downloadFiles O tp files fs cnt tot).2.filter isSummaryToast =
         (if (downloadFilesGo O tp tot files fs cnt).failed.isEmpty then []
          else [Step.toastErrorDesc
                 (failMessage (downloadFilesGo O tp tot files fs cnt).failed)
                 "Some files might be missing from the installation"]))
    ∧ (∀ (env : String → String) (osTag now icon : String)
       (O : String → Nat → AttemptOutcome) (ce : ExecResult) (d : InstanceDataM)
       (itype : String) (w : World) (ip : String),
       instancePathOf env osTag itype d.name = .ok ip →
       w.fs.contains ip = false →
       (createMinecraftInstance env osTag now icon O ce d itype false w).1 =
         Except.ok true) :=
  ⟨fun O tp tot files fs cnt => dlgo_failed O tp tot files fs cnt,
   fun O tp files fs cnt tot => downloadFiles_summary O tp files fs cnt tot,
   fun env osTag now icon O ce d itype w ip hip hfresh =>
     create_result_ok env osTag now icon O ce d itype w ip hip hfresh⟩

/-- Witness for C8: the concrete run of `dFail` under the always-failing
oracle still returns `true`. -/
theorem c8_failed_aggregation_witness :
    (createMinecraftInstance env0 "Linux" "t" "i" Ofail ce0 dFail "minecraft"
        false w0).1 = Except.ok true :=
  c8_failed_aggregation_amended.2.2 env0 "Linux" "t" "i" Ofail ce0 dFail
    "minecraft" w0 "/h/.minecraft/instances/n2" (by rfl) (by rfl)

theorem findVal_upsert_ne (k k' : String) (v : Profile)
    (l : List (String × Profile)) (h : k' ≠ k) :
    findVal k' (upsert k v l) = findVal k' l := by
  induction l with
  | nil => simp [upsert, findVal, beq_eq_false_iff_ne.mpr (Ne.symm h)]
  | cons e t ih =>
    obtain ⟨k1, v1⟩ := e
    by_cases he : k1 == k
    · have hk1 : k1 = k := by simpa using he
      subst hk1
      simp [upsert, findVal, beq_eq_false_iff_ne.mpr (Ne.symm h)]
    · simp only [upsert, he, Bool.false_eq_true, if_false]
      by_cases hk' : k1 == k'
      · simp [findVal, hk']
      · simp [findVal, hk', ih]

theorem countKey_eq_zero_of_not_mem (k : String) (l : List (String × Profile))
    (h : k ∉ l.map Prod.fst) : countKey k l = 0 := by
  induction l with
  | nil => rfl
  | cons e t ih =>
    obtain ⟨k1, v1⟩ := e
    simp only [List.map_cons, List.mem_cons, not_or] at h
    obtain ⟨h1, h2⟩ := h
    have ht := ih h2
    simp only [countKey, List.filter_cons] at ht ⊢
    simp [beq_eq_false_iff_ne.mpr (Ne.symm h1), ht]

theorem countKey_upsert (k : String) (v : Profile) (l : List (String × Profile))
    (h : (l.map Prod.fst).Nodup) : countKey k (upsert k v l) = 1 := by
  induction l with
  | nil => simp [upsert, countKey]
  | cons e t ih =>
    obtain ⟨k1, v1⟩ := e
    simp only [List.map_cons, List.nodup_cons] at h
    obtain ⟨hnm, hnd⟩ := h
    by_cases he : k1 == k
    · have hk1 : k1 = k := by simpa using he
      subst hk1
      have h0 := countKey_eq_zero_of_not_mem k1 t hnm
      simp only [countKey, List.filter_cons] at h0 ⊢
      simp [upsert, h0]
    · have hk1 : k1 ≠ k := by simpa using he
      have := ih hnd
      simp only [countKey, List.filter_cons] at this ⊢
      simp [upsert, he, this]

theorem upsert_keys_sub (k : String) (v : Profile) (l : List (String × Profile)) :
    ∀ x ∈ (upsert k v l).map Prod.fst, x = k ∨ x ∈ l.map Prod.fst := by
  induction l with
  | nil => simp [upsert]
  | cons e t ih =>
    obtain ⟨k1, v1⟩ := e
    by_cases he : k1 == k
    · intro x hx
      simp only [upsert, he, if_true, List.map_cons, List.mem_cons] at hx
      rcases hx with hx | hx
      · exact Or.inl hx
      · exact Or.inr (by simp [hx])
    · intro x hx
      simp only [upsert, he, Bool.false_eq_true, if_false, List.map_cons,
        List.mem_cons] at hx
      rcases hx with hx | hx
      · exact Or.inr (by simp [hx])
      · rcases ih x hx with h' | h'
        · exact Or.inl h'
        · exact Or.inr (by simp [h'])

theorem upsert_keys_nodup (k : String) (v : Profile) (l : List (String × Profile))
    (h : (l.map Prod.fst).Nodup) : ((upsert k v l).map Prod.fst).Nodup := by
  induction l with
  | nil => simp [upsert]
  | cons e t ih =>
    obtain ⟨k1, v1⟩ := e
    simp only [List.map_cons, List.nodup_cons] at h
    obtain ⟨hnm, hnd⟩ := h
    by_cases he : k1 == k
    · have hk1 : k1 = k := by simpa using he
      subst hk1
      simp only [upsert, beq_self_eq_true, if_true, List.map_cons, List.nodup_cons]
      exact ⟨hnm, hnd⟩
    · have hk1 : k1 ≠ k := by simpa using he
      simp only [upsert, he, Bool.false_eq_true, if_false, List.map_cons,
        List.nodup_cons]
      refine ⟨?_, ih hnd⟩
      intro hx
      rcases upsert_keys_sub k v t k1 hx with h' | h'
      · exact hk1 h'
      · exact hnm h'

theorem create_store_effect (env : String → String) (osTag now icon : String)
    (O : String → Nat → AttemptOutcome) (ce : ExecResult) (d : InstanceDataM)
    (w : World) (ip : String)
    (hip : instancePathOf env osTag "minecraft" d.name = .ok ip) :
    (createMinecraftInstance env osTag now icon O ce d "minecraft" true w).2.1.store =
      some (upsertProfile now icon d.name ip
        (some ("-Xmx" ++ d.java.recommended_memory)) w.store) := by
  obtain ⟨bp, mp, pp, h1, h2, h3, hipEq⟩ :=
    instancePathOf_spec env osTag "minecraft" d.name ip hip
  have hr := createMinecraftInstance_reduce env osTag now icon O ce d "minecraft"
    true w bp mp pp h1 h2 h3
  rw [← hipEq] at hr
  rw [hr]
  by_cases hex : w.fs.contains ip = true
  · simp only [hex, if_true]
    simp [installBody_store]
  · have hex' : w.fs.contains ip = false := by simpa using hex
    simp only [hex', Bool.false_eq_true, if_false]
    simp [installBody_store]

/-- C7: installing the same instance twice with `force = true` through
the generic-launcher branch leaves the profile store with exactly one
entry keyed by the instance's slug, and every pre-existing entry under a
different key is unchanged — the store is read, merged (upserted) and
written back, never replaced wholesale. -/
theorem c7_profile_upsert_idempotent (env : String → String)
    (osTag now1 now2 icon : String) (O : String → Nat → AttemptOutcome)
    (ce : ExecResult) (d : InstanceDataM) (w : World) (ip : String)
    (hip : instancePathOf env osTag "minecraft" d.name = .ok ip)
    (hnd : (((w.store.getD defaultStore).profiles).map Prod.fst).Nodup) :
    countKey (profileId d.name)
      (((createMinecraftInstance env osTag now2 icon O ce d "minecraft" true
          (createMinecraftInstance env osTag now1 icon O ce d "minecraft" true
            w).2.1).2.1.store.getD defaultStore).profiles) = 1
    ∧ ∀ k, k ≠ profileId d.name →
        findVal k
          (((createMinecraftInstance env osTag now2 icon O ce d "minecraft" true
              (createMinecraftInstance env osTag now1 icon O ce d "minecraft" true
                w).2.1).2.1.store.getD defaultStore).profiles) =
        findVal k ((w.store.getD defaultStore).profiles) := by
  have e1 := create_store_effect env osTag now1 icon O ce d w ip hip
  have e2 := create_store_effect env osTag now2 icon O ce d
    (createMinecraftInstance env osTag now1 icon O ce d "minecraft" true w).2.1
    ip hip
  rw [e1] at e2
  rw [e2]
  simp only [Option.getD_some, upsertProfile]
  constructor
  · exact countKey_upsert _ _ _ (upsert_keys_nodup _ _ _ hnd)
  · intro k hk
    rw [findVal_upsert_ne _ _ _ _ hk, findVal_upsert_ne _ _ _ _ hk]

/-- Witness for C7: installing `dPack` twice with force over a store
already holding an unrelated entry leaves exactly one entry for the
slug. -/
theorem c7_profile_upsert_idempotent_witness :
    countKey (profileId dPack.name)
      (((createMinecraftInstance env0 "Linux" "t2" "i" O0 ce0 dPack "minecraft" true
          (createMinecraftInstance env0 "Linux" "t1" "i" O0 ce0 dPack "minecraft" true
            wPre).2.1).2.1.store.getD defaultStore).profiles) = 1 :=
  (c7_profile_upsert_idempotent env0 "Linux" "t1" "t2" "i" O0 ce0 dPack wPre
    "/h/.minecraft/instances/Pack" (by rfl) (by decide)).1

/-- C5: at a concrete generic-launcher install (Linux, HOME=/h, instance
`Pack`), the profile `create.ts` writes for the slug has `gameDir` equal
to the instance path itself, NOT the game-data path
`instancePath/.minecraft` that the claim (and the spec's invariant)
requires — while the refactored `updateLauncherProfiles` of instance.ts
does set `gameDir` to `instancePath/.minecraft`.  The files themselves
are downloaded into `instancePath/.minecraft`, so the create.ts profile
points the launcher at the wrong directory: the claim matches the
intent and the code is the slip. -/
theorem c5_gamedir_code_bug :
    (findVal (profileId "Pack")
        (((createMinecraftInstance env0 "Linux" "t" "i" O0 ce0 dPack "minecraft"
            false w0).2.1.store.getD defaultStore).profiles)).map Profile.gameDir =
      some "/h/.minecraft/instances/Pack"
    ∧ (("/h/.minecraft/instances/Pack" : String) ==
        joinPath "/h/.minecraft/instances/Pack" ".minecraft") = false
    ∧ (findVal (profileId "Pack")
        ((updateLauncherProfilesInstance "t" "i" "/h/.minecraft" dPack
            "/h/.minecraft/instances/Pack" none []).1.profiles)).map Profile.gameDir =
      some (joinPath "/h/.minecraft/instances/Pack" ".minecraft") :=
  ⟨rfl, rfl, rfl⟩

/-- C10: the slug derivation is not injective — the distinct instance
names `Cool Pack` and `cool-pack` share the profileId
`communivents_cool_pack`, so installing the second overwrites the
generic-launcher profile entry of the first (the shared key ends up
holding the second instance's profile). -/
theorem c10_slug_not_injective :
    profileId "Cool Pack" = profileId "cool-pack"
    ∧ (("Cool Pack" : String) == "cool-pack") = false
    ∧ (findVal (profileId "Cool Pack")
        ((upsertProfile "t2" "i" "cool-pack" "/p2" none
            (some (upsertProfile "t1" "i" "Cool Pack" "/p1" none none))).profiles)).map
        Profile.name = some "cool-pack" :=
  ⟨rfl, rfl, rfl⟩

/-- C4 counterexample: under an environment where `APPDATA` is `X` and
`HOME` is `H`, the instance path `createMinecraftInstance` (create.ts)
resolves on Windows is rooted at `H/AppData/Roaming` — composed from the
HOME environment value — and differs from the APPDATA-rooted path of the
documented table (which instance.ts's resolvers produce), refuting the
claim that the resolved path always matches the table. -/
theorem c4_path_table_counterexample :
    instancePathOf envX "Windows" "minecraft" "n" =
      .ok "H/AppData/Roaming/.minecraft/instances/n"
    ∧ instanceResolvedPath envX "Windows" "minecraft" "n" =
      .ok "X/.minecraft/instances/n"
    ∧ (("H/AppData/Roaming/.minecraft/instances/n" : String) ==
        "X/.minecraft/instances/n") = false
    ∧ envX "APPDATA" = "X" :=
  ⟨rfl, rfl, rfl, rfl⟩

/-- C4 amended: the resolver functions of instance.ts (`getBasePath`,
`getMinecraftPath`, `getPrismLauncherPath` and the instance-path
composition) match the documented table exactly for all six OS×launcher
combinations, and any other OS value yields the fatal "Unsupported
operating system" error; `createMinecraftInstance` of create.ts composes
the same table except that its Windows base path is
`<HOME>/AppData/Roaming` (built from the HOME environment value) instead
of the APPDATA environment value, agreeing with `getBasePath` on macos
and linux. -/
theorem c4_path_table_amended :
    (∀ (env : String → String) (name bp : String),
      getBasePath env "Windows" = .ok (env "APPDATA")
      ∧ getBasePath env "Darwin" =
          .ok (joinPath (joinPath (env "HOME") "Library") "Application Support")
      ∧ getBasePath env "Linux" = .ok (env "HOME")
      ∧ getMinecraftPath bp "Windows" = .ok (joinPath bp ".minecraft")
      ∧ getMinecraftPath bp "Linux" = .ok (joinPath bp ".minecraft")
      ∧ getMinecraftPath bp "Darwin" = .ok (joinPath bp "minecraft")
      ∧ getPrismLauncherPath bp "Windows" = .ok (joinPath bp "PrismLauncher")
      ∧ getPrismLauncherPath bp "Darwin" = .ok (joinPath bp "PrismLauncher")
      ∧ getPrismLauncherPath bp "Linux" =
          .ok (joinPath (joinPath (joinPath bp ".local") "share") "PrismLauncher")
      ∧ instanceResolvedPath env "Windows" "minecraft" name =
          .ok (joinPath (joinPath (joinPath (env "APPDATA") ".minecraft")
                "instances") name)
      ∧ instanceResolvedPath env "Darwin" "minecraft" name =
          .ok (joinPath (joinPath (joinPath (joinPath (joinPath (env "HOME")
                "Library") "Application Support") "minecraft") "instances") name)
      ∧ instanceResolvedPath env "Linux" "minecraft" name =
          .ok (joinPath (joinPath (joinPath (env "HOME") ".minecraft")
                "instances") name)
      ∧ instanceResolvedPath env "Windows" "prism" name =
          .ok (joinPath (joinPath (joinPath (env "APPDATA") "PrismLauncher")
                "instances") name)
      ∧ instanceResolvedPath env "Darwin" "prism" name =
          .ok (joinPath (joinPath (joinPath (joinPath (joinPath (env "HOME")
                "Library") "Application Support") "PrismLauncher") "instances") name)
      ∧ instanceResolvedPath env "Linux" "prism" name =
          .ok (joinPath (joinPath (joinPath (joinPath (joinPath (env "HOME")
                ".local") "share") "PrismLauncher") "instances") name)
      ∧ createBasePath (env "HOME") "Windows" =
          .ok (joinPath (joinPath (env "HOME") "AppData") "Roaming")
      ∧ createBasePath (env "HOME") "Darwin" = getBasePath env "Darwin"
      ∧ createBasePath (env "HOME") "Linux" = getBasePath env "Linux")
    ∧ (∀ (env : String → String) (os : String),
        os ≠ "Windows" → os ≠ "Darwin" → os ≠ "Linux" →
        getBasePath env os = .error "Unsupported operating system"
        ∧ createBasePath (env "HOME") os = .error "Unsupported operating system") := by
  constructor
  · intro env name bp
    exact ⟨rfl, rfl, rfl, rfl, rfl, rfl, rfl, rfl, rfl, rfl, rfl, rfl, rfl, rfl,
      rfl, rfl, rfl, rfl⟩
  · intro env os h1 h2 h3
    constructor <;> simp [getBasePath, createBasePath, h1, h2, h3]

/-- Witness for C4: an unsupported OS value raises the fatal error in
both implementations. -/
theorem c4_path_table_witness :
    getBasePath envX "FreeBSD" = .error "Unsupported operating system"
    ∧ createBasePath (envX "HOME") "FreeBSD" =
        .error "Unsupported operating system" :=
  c4_path_table_amended.2 envX "FreeBSD" (by decide) (by decide) (by decide)
